import Mathlib

/-!
Shallow embedding of the MLX90615 MicroPython driver (`mlx90615.py`, version
0.1.9).  Pure computations (`_crc8`, the fixed-point emissivity conversions,
the temperature transform) are translated directly.  The stateful I2C layer is
modelled by explicit state passing: a `St` value records the 16-bit register
writes issued to the bus and the number of bus reads performed, and a
`BusModel` injects the platform `machine.I2C` object (the bytes a read
delivers, and whether a raw write raises).  Exceptions become `Except PyErr`;
`time.sleep_ms` has no observable effect in this model and is dropped.  The
pin-level helpers (`sleep`, `wake`, `pwm_to_i2c`) and the remaining plain
readers are outside the claims and are not embedded.
-/

/-- EEPROM register holding the slave I2C address (`_REG_SLAVE_I2C_ADDRESS`). -/
def _REG_SLAVE_I2C_ADDRESS : Nat := 0x10

/-- EEPROM register holding the PWM temperature minimum (`_REG_PWM_TMIN`). -/
def _REG_PWM_TMIN : Nat := 0x10

/-- EEPROM register holding the PWM temperature range (`_REG_PWM_TRANGE`). -/
def _REG_PWM_TRANGE : Nat := 0x11

/-- EEPROM config register (`_REG_CONFIG`). -/
def _REG_CONFIG : Nat := 0x12

/-- EEPROM emissivity register (`_REG_EMISSIVITY`). -/
def _REG_EMISSIVITY : Nat := 0x13

/-- RAM ambient temperature register (`_REG_AMBIENT_TEMP`). -/
def _REG_AMBIENT_TEMP : Nat := 0x26

/-- RAM object temperature register (`_REG_OBJECT_TEMP`). -/
def _REG_OBJECT_TEMP : Nat := 0x27

/-- Body of the `for _ in range(8)` loop of `MLX90615._crc8`: shift left one
bit, XOR with the polynomial `0x07` when bit 8 is set (Python truthiness of
`crc & 0x0100`), mask back to 8 bits. -/
def crc8step (crc : Nat) : Nat :=
  let c := crc <<< 1
  let c := if c &&& 0x0100 ≠ 0 then c ^^^ 0x07 else c
  c &&& 0xFF

/-- `MLX90615._crc8(icrc, data)` (lines 38-45): XOR `data` into the
accumulator, then run `crc8step` eight times. -/
def _crc8 (icrc data : Nat) : Nat :=
  (List.range 8).foldl (fun crc _ => crc8step crc) (icrc ^^^ data)

/-- The checksum algorithm as the spec words it: XOR `data` into
`accumulator`, then iterate 8 times the shift/conditional-XOR/mask step. -/
def crc8_spec (accumulator data : Nat) : Nat :=
  crc8step^[8] (accumulator ^^^ data)

/-- Python's built-in `round` applied to the true-division quotient `a / b`
(`b > 0`), on naturals: round half to even.  The driver only forms quotients
`(value*0x4000)/100` and `(100*d)/0x4000`; for those, division by `0x4000` is
exact in double precision, and division by 100 yields a double within
`2 ^ (-38)` of the rational while ties (`a % 100 = 50`, impossible for
`a = value * 0x4000`, and exactly representable when they do occur) keep the
float rounding equal to rounding the exact rational, so this model coincides
with CPython/MicroPython `round(a / b)`. -/
def pyRound (a b : Nat) : Nat :=
  let q := a / b
  let r := a % b
  if 2 * r < b then q
  else if b < 2 * r then q + 1
  else if q % 2 = 0 then q else q + 1

/-- Python's `round` on the quotient `a / b` for integer `a` and positive
integer `b`, used where the numerator can be negative (`read_emissivity`'s
sign fold).  Floor division leaves a remainder in `[0, b)`, so the same
half-to-even comparison applies. -/
def pyRoundInt (a b : Int) : Int :=
  let q := Int.fdiv a b
  let r := Int.fmod a b
  if 2 * r < b then q
  else if b < 2 * r then q + 1
  else if q % 2 = 0 then q else q + 1

/-- The percent-to-raw conversion of `set_emissivity` (line 139):
`e = round((value*0x4000)/100)`. -/
def emissivityRaw (value : Nat) : Nat := pyRound (value * 0x4000) 100

/-- The raw-to-percent conversion of `read_emissivity` (lines 133-135): fold
raw values `>= 32768` to `32768 - d` (which is `<= 0`, hence the `Int`
result), then `round(100*d/0x4000)`. -/
def readEmissivityValue (d : Nat) : Int :=
  let d' : Int := if 32768 ≤ d then 32768 - (d : Int) else (d : Int)
  pyRoundInt (100 * d') 0x4000

/-- One 16-bit register write issued to the bus: `i2c.writeto_mem(address,
register, buf)` with `buf = [lsb, msb, pec]`. -/
structure WriteOp where
  register : Nat
  lsb : Nat
  msb : Nat
  pec : Nat
deriving DecidableEq

/-- The 16-bit value a write op carries, recombined from its two payload
bytes. -/
def WriteOp.value (op : WriteOp) : Nat := op.lsb ||| (op.msb <<< 8)

/-- Observable bus state threaded through the driver: the register writes
issued so far (in order) and how many 3-byte register reads were issued. -/
structure St where
  writes : List WriteOp
  reads : Nat
deriving DecidableEq

/-- Fresh state: no bus traffic yet. -/
def St.init : St := ⟨[], 0⟩

/-- The injected platform bus: which bytes `i2c.readfrom_mem_into` deposits in
`buf` for a read issued in state `s`, and whether `i2c.writeto_mem` raises for
a write issued in state `s`. -/
structure BusModel where
  readBytes : St → Nat × Nat × Nat
  writeFail : St → Bool

/-- The CRC chain `read16` computes when `crc_check` is on (lines 54-58). -/
def readPec (address register lsb msb : Nat) : Nat :=
  _crc8 (_crc8 (_crc8 (_crc8 (_crc8 0 (address <<< 1)) register)
    ((address <<< 1) + 1)) lsb) msb

/-- The same five-byte fold as the spec words it, with the read-phase address
byte written `(address<<1)|1`. -/
def readPecSpec (address register lsb msb : Nat) : Nat :=
  [address <<< 1, register, (address <<< 1) ||| 1, lsb, msb].foldl _crc8 0

/-- The CRC chain `write16` computes for its outgoing packet (lines 67-70). -/
def writePec (address register lsb msb : Nat) : Nat :=
  _crc8 (_crc8 (_crc8 (_crc8 0 (address <<< 1)) register) lsb) msb

/-- The Python exceptions the driver raises, as a closed error type.  Wrapped
exceptions (`"...\n{}".format(register, err)`) keep their cause as an `inner`
field.  `nameError` stands for the `NameError` MicroPython raises at line 81:
in the `else` branch of the `try` the name `err` was never bound, so building
the message itself raises before any driver exception is constructed. -/
inductive PyErr where
  | pecMismatch (register : Nat)
  | busWriteError (register : Nat)
  | readAfterWriteError (register : Nat) (inner : PyErr)
  | nameError
  | ambientReadError (inner : PyErr)
  | objectReadError (inner : PyErr)
  | ambientOutOfRange
  | objectOutOfRange
  | emissivityReadError (inner : PyErr)
  | emissivityValueError (value : Nat)
  | emissivityEraseError (inner : PyErr)
  | emissivityWriteError (inner : PyErr)
  | addressOutOfRange (addr : Nat)
  | addressPrecondition
  | addressEraseError (inner : PyErr)
  | addressWriteError (inner : PyErr)
  | pwmPrecondition
  | pwmEraseError (inner : PyErr)
  | pwmWriteError (inner : PyErr)
  | configReadError (inner : PyErr)
  | configEraseError (inner : PyErr)
  | configWriteError (inner : PyErr)
deriving DecidableEq

/-- `MLX90615.read16(register, crc_check)` (lines 47-62): read `[lsb, msb,
pec]` from the bus; when `crc_check` holds recompute the CRC chain; return
`lsb | (msb << 8)` when `(not crc_check) or (pec == crc)`, else raise the PEC
mismatch error naming the register. -/
def read16 (bus : BusModel) (address register : Nat) (crc_check : Bool)
    (s : St) : St × Except PyErr Nat :=
  let (lsb, msb, pec) := bus.readBytes s
  let s' : St := { s with reads := s.reads + 1 }
  let crc := if crc_check then readPec address register lsb msb else 0
  if crc_check = false ∨ pec = crc then (s', .ok (lsb ||| (msb <<< 8)))
  else (s', .error (.pecMismatch register))

/-- The packet `write16` assembles for `i2c.writeto_mem` (lines 65-71):
`lsb = data & 0x00FF`, `msb = data >> 8`, and the outgoing CRC. -/
def mkWriteOp (address register data : Nat) : WriteOp :=
  let lsb := data &&& 0x00FF
  let msb := data >>> 8
  ⟨register, lsb, msb, writePec address register lsb msb⟩

/-- `MLX90615.write16(register, data, read_check, eeprom_time)` (lines
64-81): issue the write packet (recorded in the state; the bus may raise),
then when `read_check` holds read the register back with `read16(register)`;
a failing read-back is wrapped as `readAfterWriteError`, and a read-back value
different from `data` takes the line-81 branch, which raises `NameError`
because `err` is unbound there. -/
def write16 (bus : BusModel) (address register data : Nat) (read_check : Bool)
    (s : St) : St × Except PyErr Unit :=
  let op := mkWriteOp address register data
  let s' : St := { s with writes := s.writes ++ [op] }
  if bus.writeFail s then (s', .error (.busWriteError register))
  else if read_check then
    match read16 bus address register true s' with
    | (s'', .error err) => (s'', .error (.readAfterWriteError register err))
    | (s'', .ok data_read) =>
      if data ≠ data_read then (s'', .error .nameError) else (s'', .ok ())
  else (s', .ok ())

/-- `MLX90615.read_ambient_temp(pec_check)` (lines 83-92): read the ambient
RAM register, wrap read failures, reject raw values above `0x7FFF`, else
return `t*2 - 27315`. -/
def read_ambient_temp (bus : BusModel) (address : Nat) (pec_check : Bool)
    (s : St) : St × Except PyErr Int :=
  match read16 bus address _REG_AMBIENT_TEMP pec_check s with
  | (s', .error err) => (s', .error (.ambientReadError err))
  | (s', .ok t) =>
    if 0x7FFF < t then (s', .error .ambientOutOfRange)
    else (s', .ok ((t : Int) * 2 - 27315))

/-- `MLX90615.read_object_temp(pec_check)` (lines 94-103). -/
def read_object_temp (bus : BusModel) (address : Nat) (pec_check : Bool)
    (s : St) : St × Except PyErr Int :=
  match read16 bus address _REG_OBJECT_TEMP pec_check s with
  | (s', .error err) => (s', .error (.objectReadError err))
  | (s', .ok t) =>
    if 0x7FFF < t then (s', .error .objectOutOfRange)
    else (s', .ok ((t : Int) * 2 - 27315))

/-- `MLX90615.read_emissivity(pec_check)` (lines 128-135). -/
def read_emissivity (bus : BusModel) (address : Nat) (pec_check : Bool)
    (s : St) : St × Except PyErr Int :=
  match read16 bus address _REG_EMISSIVITY pec_check s with
  | (s', .error err) => (s', .error (.emissivityReadError err))
  | (s', .ok d) => (s', .ok (readEmissivityValue d))

/-- `MLX90615.set_emissivity(value, ...)` (lines 137-153): validate
`5 <= value <= 100`, then erase (`write16` of `0x0000`) and program
(`write16` of `round((value*0x4000)/100)`) the emissivity register, wrapping
each phase's failure separately. -/
def set_emissivity (bus : BusModel) (address value : Nat)
    (eeprom_read_check : Bool) (s : St) : St × Except PyErr Unit :=
  if 5 ≤ value ∧ value ≤ 100 then
    let e := emissivityRaw value
    match write16 bus address _REG_EMISSIVITY 0x0000 eeprom_read_check s with
    | (s1, .error err) => (s1, .error (.emissivityEraseError err))
    | (s1, .ok _) =>
      match write16 bus address _REG_EMISSIVITY e eeprom_read_check s1 with
      | (s2, .error err) => (s2, .error (.emissivityWriteError err))
      | (s2, .ok _) => (s2, .ok ())
  else (s, .error (.emissivityValueError value))

/-- `MLX90615.set_i2c_address(addr, ...)` (lines 161-180): require the
current instance address to be `0`, validate `0x08 <= addr <= 0x77`, then
erase and program `0x3500 | addr` into the slave-address register. -/
def set_i2c_address (bus : BusModel) (self_address addr : Nat)
    (eeprom_read_check : Bool) (s : St) : St × Except PyErr Unit :=
  if self_address = 0 then
    if 0x08 ≤ addr ∧ addr ≤ 0x77 then
      let d := 0x3500 ||| addr
      match write16 bus self_address _REG_SLAVE_I2C_ADDRESS 0x0000
          eeprom_read_check s with
      | (s1, .error err) => (s1, .error (.addressEraseError err))
      | (s1, .ok _) =>
        match write16 bus self_address _REG_SLAVE_I2C_ADDRESS d
            eeprom_read_check s1 with
        | (s2, .error err) => (s2, .error (.addressWriteError err))
        | (s2, .ok _) => (s2, .ok ())
    else (s, .error (.addressOutOfRange addr))
  else (s, .error .addressPrecondition)

/-- `MLX90615.set_pwm_tmin_trange(tmin, trange, ...)` (lines 206-225):
require the current instance address to be `0`, erase both PWM registers (a
failure of either erase is the erase-phase error), then program both. -/
def set_pwm_tmin_trange (bus : BusModel) (self_address tmin trange : Nat)
    (eeprom_read_check : Bool) (s : St) : St × Except PyErr Unit :=
  if self_address = 0 then
    match write16 bus self_address _REG_PWM_TMIN 0x0000 eeprom_read_check s with
    | (s1, .error err) => (s1, .error (.pwmEraseError err))
    | (s1, .ok _) =>
      match write16 bus self_address _REG_PWM_TRANGE 0x0000 eeprom_read_check s1 with
      | (s2, .error err) => (s2, .error (.pwmEraseError err))
      | (s2, .ok _) =>
        match write16 bus self_address _REG_PWM_TMIN tmin eeprom_read_check s2 with
        | (s3, .error err) => (s3, .error (.pwmWriteError err))
        | (s3, .ok _) =>
          match write16 bus self_address _REG_PWM_TRANGE trange eeprom_read_check s3 with
          | (s4, .error err) => (s4, .error (.pwmWriteError err))
          | (s4, .ok _) => (s4, .ok ())
  else (s, .error .pwmPrecondition)

/-- The config word `set_pwm_mode` programs back (lines 233-239): clear the
low three bits of the word `d` it read, then set bit 0 when `not pwm`, bit 1
when `pwm_fast`, bit 2 when `not pwm_object`. -/
def pwmConfigValue (d : Nat) (pwm pwm_fast pwm_object : Bool) : Nat :=
  let d := d &&& 0xFFF8
  let d := if !pwm then d ||| 0x0001 else d
  let d := if pwm_fast then d ||| 0x0002 else d
  let d := if !pwm_object then d ||| 0x0004 else d
  d

/-- `MLX90615.set_pwm_mode(pwm, pwm_fast, pwm_object, ...)` (lines 227-251):
read the config register (with checksum), rebuild its low bits, then erase
and program it with the phase failures wrapped separately. -/
def set_pwm_mode (bus : BusModel) (address : Nat)
    (pwm pwm_fast pwm_object : Bool) (eeprom_read_check : Bool) (s : St) :
    St × Except PyErr Unit :=
  match read16 bus address _REG_CONFIG true s with
  | (s0, .error err) => (s0, .error (.configReadError err))
  | (s0, .ok d) =>
    let v := pwmConfigValue d pwm pwm_fast pwm_object
    match write16 bus address _REG_CONFIG 0x0000 eeprom_read_check s0 with
    | (s1, .error err) => (s1, .error (.configEraseError err))
    | (s1, .ok _) =>
      match write16 bus address _REG_CONFIG v eeprom_read_check s1 with
      | (s2, .error err) => (s2, .error (.configWriteError err))
      | (s2, .ok _) => (s2, .ok ())

/-- A mocked healthy device: each read returns the payload bytes of the most
recent 16-bit write with a correct PEC, a read before any write serves the
word `d0` (used as the config register's content), and no write raises. -/
def echoBus (address d0 : Nat) : BusModel where
  readBytes s :=
    match s.writes.getLast? with
    | some op => (op.lsb, op.msb, readPec address op.register op.lsb op.msb)
    | none => (d0 &&& 0x00FF, d0 >>> 8,
        readPec address _REG_CONFIG (d0 &&& 0x00FF) (d0 >>> 8))
  writeFail _ := false

/-- A mocked bus on which every raw register write raises, while reads behave
as on `echoBus`: the mock of the spec's failing-erase scenario. -/
def failBus (address d0 : Nat) : BusModel :=
  { echoBus address d0 with writeFail := fun _ => true }

/-- The values written to one register, in bus order. -/
def writesTo (s : St) (register : Nat) : List Nat :=
  (s.writes.filter (fun op => op.register == register)).map WriteOp.value

/-- The erase-then-program discipline, stated for all four EEPROM setters at
once: on a healthy (echoing) bus every updated register receives exactly the
write sequence `[0x0000, new value]`, and on a bus whose raw writes fail, each
setter raises its erase-phase error and never issues the program write. -/
def eepromProtocolOk (address d value newAddr tmin trange : Nat)
    (p f o rc : Bool) : Prop :=
  writesTo (set_emissivity (echoBus address d) address value rc St.init).1
      _REG_EMISSIVITY = [0x0000, emissivityRaw value]
  ∧ writesTo (set_i2c_address (echoBus 0 d) 0 newAddr rc St.init).1
      _REG_SLAVE_I2C_ADDRESS = [0x0000, 0x3500 ||| newAddr]
  ∧ writesTo (set_pwm_tmin_trange (echoBus 0 d) 0 tmin trange rc St.init).1
      _REG_PWM_TMIN = [0x0000, tmin]
  ∧ writesTo (set_pwm_tmin_trange (echoBus 0 d) 0 tmin trange rc St.init).1
      _REG_PWM_TRANGE = [0x0000, trange]
  ∧ writesTo (set_pwm_mode (echoBus address d) address p f o rc St.init).1
      _REG_CONFIG = [0x0000, pwmConfigValue d p f o]
  ∧ (set_emissivity (failBus address d) address value rc St.init).2
      = .error (.emissivityEraseError (.busWriteError _REG_EMISSIVITY))
  ∧ writesTo (set_emissivity (failBus address d) address value rc St.init).1
      _REG_EMISSIVITY = [0x0000]
  ∧ (set_i2c_address (failBus 0 d) 0 newAddr rc St.init).2
      = .error (.addressEraseError (.busWriteError _REG_SLAVE_I2C_ADDRESS))
  ∧ writesTo (set_i2c_address (failBus 0 d) 0 newAddr rc St.init).1
      _REG_SLAVE_I2C_ADDRESS = [0x0000]
  ∧ (set_pwm_tmin_trange (failBus 0 d) 0 tmin trange rc St.init).2
      = .error (.pwmEraseError (.busWriteError _REG_PWM_TMIN))
  ∧ writesTo (set_pwm_tmin_trange (failBus 0 d) 0 tmin trange rc St.init).1
      _REG_PWM_TMIN = [0x0000]
  ∧ writesTo (set_pwm_tmin_trange (failBus 0 d) 0 tmin trange rc St.init).1
      _REG_PWM_TRANGE = []
  ∧ (set_pwm_mode (failBus address d) address p f o rc St.init).2
      = .error (.configEraseError (.busWriteError _REG_CONFIG))
  ∧ writesTo (set_pwm_mode (failBus address d) address p f o rc St.init).1
      _REG_CONFIG = [0x0000]

/-- Balanced exhaustive check of a boolean predicate on the `2 ^ d` naturals
starting at `lo`: the binary splitting keeps the evaluation stack
logarithmic, where a linear fold over `0x4001` inputs would not reduce. -/
def allSeg (f : Nat → Bool) : Nat → Nat → Bool
  | 0, lo => f lo
  | d + 1, lo => allSeg f d lo && allSeg f d (lo + 2 ^ d)

/-- The round-trip distance bound of claim C7, amended to 82 units, as a
boolean predicate on the raw value. -/
def roundTripWithin (x : Nat) : Bool :=
  decide ((((emissivityRaw (pyRound (100 * x) 0x4000)) : Int) - (x : Int)).natAbs ≤ 82)

deriving instance DecidableEq for Except

set_option maxRecDepth 8000

/-- Splitting a word into `data & 0x00FF` and `data >> 8` and recombining with
`lsb | (msb << 8)` restores the word. -/
theorem byte_recombine (d : Nat) : (d &&& 0xFF) ||| ((d >>> 8) <<< 8) = d := by
  apply Nat.eq_of_testBit_eq
  intro i
  simp only [Nat.testBit_lor, Nat.testBit_land, Nat.testBit_shiftLeft,
    Nat.testBit_shiftRight]
  rcases lt_or_ge i 8 with h | h
  · have h255 : Nat.testBit 255 i = true := by
      have := Nat.testBit_two_pow_sub_one 8 i
      norm_num at this
      simp [this, h]
    simp [h255, Nat.not_le.mpr h, h]
  · have h255 : Nat.testBit 255 i = false := by
      have := Nat.testBit_two_pow_sub_one 8 i
      norm_num at this
      simp [this, Nat.not_lt.mpr h]
    have h8 : 8 + (i - 8) = i := by omega
    simp [h255, h, h8, ge_iff_le]

/-- On the even number `a <<< 1`, setting bit 0 and adding 1 agree: the read
address byte `(address<<1)+1` of the code is the `(address<<1)|1` of the
spec. -/
theorem shiftLeft_one_or_one (a : Nat) : (a <<< 1) ||| 1 = (a <<< 1) + 1 := by
  rw [Nat.shiftLeft_eq, pow_one]
  rcases Nat.eq_zero_or_pos a with rfl | ha
  · decide
  · show Nat.bitwise or (a * 2) 1 = a * 2 + 1
    rw [Nat.bitwise]
    have h1 : a * 2 ≠ 0 := by omega
    have h2 : a * 2 / 2 = a := by omega
    have h3 : ¬ (a * 2 % 2 = 1) := by omega
    simp [h1, h2, h3, Nat.or_zero]
    omega

/-- The CRC chain of `read16` is the five-byte fold of the spec. -/
theorem readPec_eq_readPecSpec (a r l m : Nat) :
    readPec a r l m = readPecSpec a r l m := by
  unfold readPec readPecSpec
  simp [List.foldl, shiftLeft_one_or_one]

/-- Each loop iteration of `_crc8` ends in an 8-bit mask. -/
theorem crc8step_le (x : Nat) : crc8step x ≤ 255 := Nat.and_le_right

/-- `_crc8` unfolded to its eight iterations. -/
theorem _crc8_eq (icrc data : Nat) :
    _crc8 icrc data = crc8step (crc8step (crc8step (crc8step (crc8step
      (crc8step (crc8step (crc8step (icrc ^^^ data)))))))) := rfl

/-- The packet built by `write16` carries the written word. -/
theorem value_mkWriteOp (address register data : Nat) :
    (mkWriteOp address register data).value = data := by
  simp [mkWriteOp, WriteOp.value, byte_recombine]

/-- On the echoing healthy bus, `write16` appends exactly its packet to the
trace, performs the read-back exactly when asked, and succeeds. -/
theorem write16_echo (address d0 register data : Nat) (rc : Bool) (s : St) :
    write16 (echoBus address d0) address register data rc s =
      ({ writes := s.writes ++ [mkWriteOp address register data],
         reads := s.reads + (if rc then 1 else 0) }, .ok ()) := by
  cases rc
  · simp [write16, echoBus]
  · simp [write16, echoBus, read16, List.getLast?_concat, mkWriteOp,
      byte_recombine]

/-- On the failing bus, `write16` records its attempted packet and raises the
bus write error without any read-back. -/
theorem write16_fail (address d0 register data : Nat) (rc : Bool) (s : St) :
    write16 (failBus address d0) address register data rc s =
      ({ writes := s.writes ++ [mkWriteOp address register data],
         reads := s.reads }, .error (.busWriteError register)) := by
  simp [write16, failBus]

/-- A passing `allSeg` check covers every point of its segment. -/
theorem allSeg_spec (f : Nat → Bool) :
    ∀ d lo, allSeg f d lo = true → ∀ i, i < 2 ^ d → f (lo + i) = true := by
  intro d
  induction d with
  | zero =>
    intro lo h i hi
    interval_cases i
    simpa [allSeg] using h
  | succ d ih =>
    intro lo h i hi
    rw [allSeg, Bool.and_eq_true] at h
    by_cases hc : i < 2 ^ d
    · exact ih lo h.1 i hc
    · have h2 := ih (lo + 2 ^ d) h.2 (i - 2 ^ d) (by rw [pow_succ] at hi; omega)
      have harith : lo + 2 ^ d + (i - 2 ^ d) = lo + i := by omega
      rwa [harith] at h2

/-- Claim C1: for byte inputs, `_crc8` computes exactly the spec's algorithm
(XOR the data into the accumulator, then eight rounds of shift, conditional
XOR with `0x07`, and 8-bit mask), is a pure deterministic function, and its
result is again a byte. -/
theorem c1_crc8_correct (icrc data : Nat) (h1 : icrc ≤ 255) (h2 : data ≤ 255) :
    _crc8 icrc data = crc8_spec icrc data ∧ _crc8 icrc data ≤ 255 := by
  constructor
  · rfl
  · rw [_crc8_eq]
    exact crc8step_le _

/-- Witness for C1 at the device's default address byte and a sample data
byte. -/
theorem c1_crc8_correct_witness :
    0xB6 ≤ 255 ∧ 0x27 ≤ 255 ∧
      (_crc8 0xB6 0x27 = crc8_spec 0xB6 0x27 ∧ _crc8 0xB6 0x27 ≤ 255) :=
  ⟨by decide, by decide, c1_crc8_correct 0xB6 0x27 (by decide) (by decide)⟩

/-- Claim C6: decoding the encoded emissivity is the identity on integer
percentages 5..100: the percent-to-raw conversion of `set_emissivity`
followed by the raw-to-percent conversion of `read_emissivity` returns the
input exactly. -/
theorem c6_emissivity_decode_encode (p : Nat) (h1 : 5 ≤ p) (h2 : p ≤ 100) :
    readEmissivityValue (emissivityRaw p) = (p : Int) := by
  have h : ∀ q, q < 101 → 5 ≤ q →
      readEmissivityValue (emissivityRaw q) = (q : Int) := by decide
  exact h p (by omega) h1

/-- Witness for C6 at the spec's example percentage 95. -/
theorem c6_emissivity_decode_encode_witness :
    5 ≤ 95 ∧ 95 ≤ 100 ∧ readEmissivityValue (emissivityRaw 95) = (95 : Int) :=
  ⟨by decide, by decide, c6_emissivity_decode_encode 95 (by decide) (by decide)⟩

/-- Claim C7 fails as stated: at raw value `x = 82` the percentage round-trip
returns 164, which is 82 units away from `x`, not within 1 unit. -/
theorem c7_roundtrip_counterexample :
    ¬ ∀ x : Nat, x ≤ 0x4000 →
      ((emissivityRaw (pyRound (100 * x) 0x4000) : Int) - (x : Int)).natAbs ≤ 1 := by
  intro h
  exact absurd (h 82 (by decide)) (by decide)

set_option maxHeartbeats 8000000 in
/-- Claim C7 amended: the raw-percent-raw round-trip is within half a
quantization step, 82 raw units (one percent spans `0x4000/100 = 163.84` raw
units), for every raw value in `[0, 0x4000]`. -/
theorem c7_roundtrip_bound (x : Nat) (hx : x ≤ 0x4000) :
    ((emissivityRaw (pyRound (100 * x) 0x4000) : Int) - (x : Int)).natAbs ≤ 82 := by
  have hall : allSeg roundTripWithin 14 0 = true := by decide
  have hlast : roundTripWithin 16384 = true := by decide
  rcases Nat.lt_or_ge x 16384 with h | h
  · have hx14 : x < 2 ^ 14 := by norm_num [h]
    have := allSeg_spec roundTripWithin 14 0 hall x hx14
    rw [Nat.zero_add] at this
    exact of_decide_eq_true this
  · have hx' : x = 16384 := by omega
    subst hx'
    exact of_decide_eq_true hlast

/-- Witness for the amended C7 at the worst-case raw value 82. -/
theorem c7_roundtrip_bound_witness :
    82 ≤ 0x4000 ∧
      ((emissivityRaw (pyRound (100 * 82) 0x4000) : Int) - (82 : Int)).natAbs ≤ 82 :=
  ⟨by decide, c7_roundtrip_bound 82 (by decide)⟩

/-- Claim C10: `set_pwm_tmin_trange` enforces the same address-must-be-0
provisioning precondition as `set_i2c_address`: with a nonzero instance
address it raises the precondition error and leaves the bus state untouched
(no write issued), for every `tmin`/`trange` argument and any bus. -/
theorem c10_pwm_tmin_trange_precondition (bus : BusModel)
    (address tmin trange : Nat) (rc : Bool) (s : St) (h : address ≠ 0) :
    set_pwm_tmin_trange bus address tmin trange rc s
      = (s, .error .pwmPrecondition) := by
  simp [set_pwm_tmin_trange, h]

/-- Witness for C10 at the default device address `0x5B`. -/
theorem c10_pwm_tmin_trange_precondition_witness :
    (0x5B : Nat) ≠ 0 ∧
      set_pwm_tmin_trange (echoBus 0x5B 0) 0x5B 0x355B 0x09C3 false St.init
        = (St.init, .error .pwmPrecondition) :=
  ⟨by decide, c10_pwm_tmin_trange_precondition (echoBus 0x5B 0) 0x5B 0x355B
    0x09C3 false St.init (by decide)⟩

/-- Claim C5 is the intended behavior but the code diverges: when the
read-back after a write differs from the written value, line 81 formats its
message with the name `err`, which is unbound in the `else` branch of the
`try`, so MicroPython raises `NameError` instead of a write-verify error
identifying the register.  Here the bus acknowledges the write of `0x4000` to
the emissivity register but reads back `0x0000` (with a valid PEC), and
`write16` with read-back verification surfaces the `NameError`. -/
theorem c5_write16_mismatch_nameerror :
    (write16 { readBytes := fun _ => (0, 0, readPec 0x5B _REG_EMISSIVITY 0 0),
               writeFail := fun _ => false }
        0x5B _REG_EMISSIVITY 0x4000 true St.init).2
      = .error .nameError := by decide

/-- Claim C2: for every device address, register and received byte triple,
`read16` with checksum verification returns `lsb | (msb << 8)` exactly when
the received PEC equals the CRC-8 fold over `[address<<1, register,
(address<<1)|1, lsb, msb]`, raises the mismatch error naming the register
when it differs, and with verification disabled always returns the value
regardless of the PEC. -/
theorem c2_read16_checksum (bus : BusModel) (address register lsb msb pec : Nat)
    (s : St) (hbytes : bus.readBytes s = (lsb, msb, pec))
    (hl : lsb ≤ 255) (hm : msb ≤ 255) (hp : pec ≤ 255) :
    ((read16 bus address register true s).2 = .ok (lsb ||| (msb <<< 8)) ↔
      pec = readPecSpec address register lsb msb)
    ∧ (pec ≠ readPecSpec address register lsb msb →
      (read16 bus address register true s).2 = .error (.pecMismatch register))
    ∧ (read16 bus address register false s).2 = .ok (lsb ||| (msb <<< 8)) := by
  have hspec := readPec_eq_readPecSpec address register lsb msb
  by_cases hpec : pec = readPecSpec address register lsb msb
  · exact ⟨by simp [read16, hbytes, hspec, hpec], fun hne => absurd hpec hne,
      by simp [read16, hbytes]⟩
  · refine ⟨by simp [read16, hbytes, hspec, hpec], fun _ => ?_,
      by simp [read16, hbytes]⟩
    simp [read16, hbytes, hspec, hpec]

/-- Witness for C2: a read of the object temperature register at the default
address whose PEC byte is correct, and the same read with a corrupted PEC. -/
theorem c2_read16_checksum_witness :
    ({ readBytes := fun _ => (0x00, 0x40, readPecSpec 0x5B 0x27 0x00 0x40),
       writeFail := fun _ => false } : BusModel).readBytes St.init
        = (0x00, 0x40, readPecSpec 0x5B 0x27 0x00 0x40)
    ∧ ((read16 { readBytes := fun _ => (0x00, 0x40, readPecSpec 0x5B 0x27 0x00 0x40),
                 writeFail := fun _ => false } 0x5B 0x27 true St.init).2
          = .ok (0x00 ||| (0x40 <<< 8)) ↔
        readPecSpec 0x5B 0x27 0x00 0x40 = readPecSpec 0x5B 0x27 0x00 0x40) :=
  ⟨rfl, (c2_read16_checksum _ 0x5B 0x27 0x00 0x40 (readPecSpec 0x5B 0x27 0x00 0x40)
    St.init rfl (by decide) (by decide) (by decide)).1⟩

/-- Claim C4: for every raw word delivered by the bus (here with a valid PEC,
so the checksum never interferes), `read_ambient_temp` and `read_object_temp`
raise their out-of-range error exactly when the word exceeds `0x7FFF`, and
otherwise return `raw*2 - 27315` hundredths of a degree. -/
theorem c4_temperature_transform (busA busO : BusModel) (address lsb msb : Nat)
    (s : St) (pc : Bool)
    (hA : busA.readBytes s = (lsb, msb, readPec address _REG_AMBIENT_TEMP lsb msb))
    (hO : busO.readBytes s = (lsb, msb, readPec address _REG_OBJECT_TEMP lsb msb))
    (hl : lsb ≤ 255) (hm : msb ≤ 255) :
    ((read_ambient_temp busA address pc s).2 = .error .ambientOutOfRange ↔
      0x7FFF < (lsb ||| (msb <<< 8)))
    ∧ ((read_object_temp busO address pc s).2 = .error .objectOutOfRange ↔
      0x7FFF < (lsb ||| (msb <<< 8)))
    ∧ ((lsb ||| (msb <<< 8)) ≤ 0x7FFF →
      (read_ambient_temp busA address pc s).2
          = .ok (((lsb ||| (msb <<< 8)) : Int) * 2 - 27315)
        ∧ (read_object_temp busO address pc s).2
          = .ok (((lsb ||| (msb <<< 8)) : Int) * 2 - 27315)) := by
  have hamb : read16 busA address _REG_AMBIENT_TEMP pc s
      = ({ s with reads := s.reads + 1 }, .ok (lsb ||| (msb <<< 8))) := by
    cases pc <;> simp [read16, hA]
  have hobj : read16 busO address _REG_OBJECT_TEMP pc s
      = ({ s with reads := s.reads + 1 }, .ok (lsb ||| (msb <<< 8))) := by
    cases pc <;> simp [read16, hO]
  by_cases ht : 0x7FFF < (lsb ||| (msb <<< 8))
  · refine ⟨?_, ?_, fun hle => absurd hle (by omega)⟩
    · simp [read_ambient_temp, hamb, ht]
    · simp [read_object_temp, hobj, ht]
  · refine ⟨?_, ?_, fun _ => ⟨?_, ?_⟩⟩
    · simp [read_ambient_temp, hamb, ht]
    · simp [read_object_temp, hobj, ht]
    · simp [read_ambient_temp, hamb, ht]
    · simp [read_object_temp, hobj, ht]

/-- Witness for C4 at raw word `0x0000`, which maps to `-27315`. -/
theorem c4_temperature_transform_witness :
    (((read_ambient_temp
        { readBytes := fun _ => (0, 0, readPec 0x5B _REG_AMBIENT_TEMP 0 0),
          writeFail := fun _ => false } 0x5B true St.init).2
       = .error .ambientOutOfRange) ↔ 0x7FFF < ((0 : Nat) ||| ((0 : Nat) <<< 8)))
    ∧ (((0 : Nat) ||| ((0 : Nat) <<< 8)) ≤ 0x7FFF →
      (read_ambient_temp
        { readBytes := fun _ => (0, 0, readPec 0x5B _REG_AMBIENT_TEMP 0 0),
          writeFail := fun _ => false } 0x5B true St.init).2
          = .ok ((((0 : Nat) ||| ((0 : Nat) <<< 8)) : Int) * 2 - 27315)
        ∧ (read_object_temp
            { readBytes := fun _ => (0, 0, readPec 0x5B _REG_OBJECT_TEMP 0 0),
              writeFail := fun _ => false } 0x5B true St.init).2
          = .ok ((((0 : Nat) ||| ((0 : Nat) <<< 8)) : Int) * 2 - 27315)) := by
  have h := c4_temperature_transform
    { readBytes := fun _ => (0, 0, readPec 0x5B _REG_AMBIENT_TEMP 0 0),
      writeFail := fun _ => false }
    { readBytes := fun _ => (0, 0, readPec 0x5B _REG_OBJECT_TEMP 0 0),
      writeFail := fun _ => false }
    0x5B 0 0 St.init true rfl rfl (by decide) (by decide)
  exact ⟨h.1, h.2.2⟩

/-- Reads on the failing bus behave as on the echoing bus. -/
theorem failBus_readBytes (address d0 : Nat) :
    (failBus address d0).readBytes = (echoBus address d0).readBytes := rfl

/-- Before any write, the echoing bus serves the word `d0` as the config
register's bytes. -/
theorem echoBus_readBytes_init (address d0 : Nat) :
    (echoBus address d0).readBytes St.init
      = (d0 &&& 0x00FF, d0 >>> 8,
        readPec address _REG_CONFIG (d0 &&& 0x00FF) (d0 >>> 8)) := rfl

/-- Setting a flag below bit 3 does not change bits from 3 up. -/
theorem testBit_or_small (x k i : Nat) (hk : k < 8) (hi : 3 ≤ i) :
    (x ||| k).testBit i = x.testBit i := by
  rw [Nat.testBit_lor]
  have h8 : (8 : Nat) ≤ 2 ^ i :=
    le_trans (by norm_num : (8 : Nat) ≤ 2 ^ 3) (Nat.pow_le_pow_right (by norm_num) hi)
  have hkbit : k.testBit i = false := Nat.testBit_lt_two_pow (lt_of_lt_of_le hk h8)
  simp [hkbit]

/-- Bits 3 through 15 of the mask `0xFFF8` are set. -/
theorem testBit_fff8_mid (i : Nat) (h3 : 3 ≤ i) (h15 : i ≤ 15) :
    Nat.testBit 0xFFF8 i = true := by
  interval_cases i <;> decide

/-- Bits 0 through 2 of the mask `0xFFF8` are clear. -/
theorem testBit_fff8_low (i : Nat) (h : i < 3) : Nat.testBit 0xFFF8 i = false := by
  interval_cases i <;> decide

/-- Claim C8: `set_i2c_address` raises the precondition error whenever the
instance's current address is nonzero; at current address 0 it rejects every
new address outside `[0x08, 0x77]` with the range error; and for an in-range
new address it writes `0x3500 | new_address` to register `0x10` by
erase-then-program. -/
theorem c8_set_i2c_address (bus : BusModel) (address newAny newBad newGood d : Nat)
    (rc : Bool) (s : St)
    (hnz : address ≠ 0)
    (hbad : ¬ (0x08 ≤ newBad ∧ newBad ≤ 0x77))
    (hg1 : 0x08 ≤ newGood) (hg2 : newGood ≤ 0x77) :
    set_i2c_address bus address newAny rc s = (s, .error .addressPrecondition)
    ∧ set_i2c_address bus 0 newBad rc s = (s, .error (.addressOutOfRange newBad))
    ∧ (set_i2c_address (echoBus 0 d) 0 newGood rc St.init).2 = .ok ()
    ∧ writesTo (set_i2c_address (echoBus 0 d) 0 newGood rc St.init).1
        _REG_SLAVE_I2C_ADDRESS = [0x0000, 0x3500 ||| newGood] := by
  refine ⟨by simp [set_i2c_address, hnz], by simp [set_i2c_address, hbad], ?_, ?_⟩
  · simp [set_i2c_address, hg1, hg2, write16_echo, St.init]
  · simp [set_i2c_address, hg1, hg2, write16_echo, St.init, writesTo,
      mkWriteOp, WriteOp.value, byte_recombine]

/-- Witness for C8: precondition failure at address `0x5B`, rejection of the
out-of-range new address `0x78`, and a successful provisioning to `0x5B`. -/
theorem c8_set_i2c_address_witness :
    set_i2c_address (echoBus 0 0) 0x5B 0x2A false St.init
        = (St.init, .error .addressPrecondition)
    ∧ set_i2c_address (echoBus 0 0) 0 0x78 false St.init
        = (St.init, .error (.addressOutOfRange 0x78))
    ∧ (set_i2c_address (echoBus 0 0) 0 0x5B false St.init).2 = .ok ()
    ∧ writesTo (set_i2c_address (echoBus 0 0) 0 0x5B false St.init).1
        _REG_SLAVE_I2C_ADDRESS = [0x0000, 0x3500 ||| 0x5B] :=
  c8_set_i2c_address (echoBus 0 0) 0x5B 0x2A 0x78 0x5B 0 false St.init
    (by decide) (by decide) (by decide) (by decide)

/-- Claim C9: for every config word `d` that `set_pwm_mode` reads, the value
it programs back agrees with `d` on bits 3 through 15, and its bits 0..2 are
a function of the `pwm`, `pwm_fast`, `pwm_object` arguments alone (they equal
the bits produced from a zero config word): the read-modify-write preserves
unrelated configuration bits. -/
theorem c9_set_pwm_mode (address d : Nat) (p f o rc : Bool) (hd : d < 0x10000) :
    writesTo (set_pwm_mode (echoBus address d) address p f o rc St.init).1
        _REG_CONFIG = [0x0000, pwmConfigValue d p f o]
    ∧ (∀ i, 3 ≤ i → i ≤ 15 →
        (pwmConfigValue d p f o).testBit i = d.testBit i)
    ∧ (∀ i, i < 3 →
        (pwmConfigValue d p f o).testBit i = (pwmConfigValue 0 p f o).testBit i) := by
  refine ⟨?_, ?_, ?_⟩
  · have hread : read16 (echoBus address d) address _REG_CONFIG true St.init
        = ({ St.init with reads := St.init.reads + 1 }, .ok d) := by
      simp [read16, echoBus_readBytes_init, byte_recombine]
    simp only [set_pwm_mode]
    rw [hread]
    simp [write16_echo, writesTo, mkWriteOp, WriteOp.value, byte_recombine,
      St.init]
  · intro i h3 h15
    have h8 : (8 : Nat) ≤ 2 ^ i :=
      le_trans (by norm_num : (8 : Nat) ≤ 2 ^ 3)
        (Nat.pow_le_pow_right (by norm_num) h3)
    have hb1 : Nat.testBit 1 i = false :=
      Nat.testBit_lt_two_pow (by omega)
    have hb2 : Nat.testBit 2 i = false :=
      Nat.testBit_lt_two_pow (by omega)
    have hb4 : Nat.testBit 4 i = false :=
      Nat.testBit_lt_two_pow (by omega)
    cases p <;> cases f <;> cases o <;>
      simp [pwmConfigValue, Nat.testBit_lor, Nat.testBit_land, hb1, hb2, hb4,
        testBit_fff8_mid i h3 h15]
  · intro i hi
    have hlow := testBit_fff8_low i hi
    cases p <;> cases f <;> cases o <;>
      simp only [pwmConfigValue, Bool.not_true, Bool.not_false,
        Bool.false_eq_true, if_false, if_true, Nat.testBit_lor,
        Nat.testBit_land, hlow, Nat.zero_testBit, Bool.and_false,
        Bool.false_and, Bool.false_or]

/-- Witness for C9 at config word `0xABCD`: the programmed trace, agreement
with the read word at bit 7, and flag-only dependence at bit 2. -/
theorem c9_set_pwm_mode_witness :
    writesTo (set_pwm_mode (echoBus 0x5B 0xABCD) 0x5B true false true true St.init).1
        _REG_CONFIG = [0x0000, pwmConfigValue 0xABCD true false true]
    ∧ (pwmConfigValue 0xABCD true false true).testBit 7 = (0xABCD : Nat).testBit 7
    ∧ (pwmConfigValue 0xABCD true false true).testBit 2
        = (pwmConfigValue 0 true false true).testBit 2 := by
  obtain ⟨h1, h2, h3⟩ :=
    c9_set_pwm_mode 0x5B 0xABCD true false true true (by decide)
  exact ⟨h1, h2 7 (by decide) (by decide), h3 2 (by decide)⟩

/-- Claim C3: for every EEPROM setter and every input passing validation, the
writes issued to each updated register are exactly erase (`0x0000`) then
program (the new value), never a direct overwrite; and when the erase-phase
write fails, the setter raises its erase-phase error and the program write is
never issued to the bus. -/
theorem c3_erase_then_program (address d value newAddr tmin trange : Nat)
    (p f o rc : Bool)
    (hv1 : 5 ≤ value) (hv2 : value ≤ 100)
    (ha1 : 0x08 ≤ newAddr) (ha2 : newAddr ≤ 0x77) :
    eepromProtocolOk address d value newAddr tmin trange p f o rc := by
  have hread : read16 (echoBus address d) address _REG_CONFIG true St.init
      = ({ St.init with reads := St.init.reads + 1 }, .ok d) := by
    simp [read16, echoBus_readBytes_init, byte_recombine]
  have hreadf : read16 (failBus address d) address _REG_CONFIG true St.init
      = ({ St.init with reads := St.init.reads + 1 }, .ok d) := by
    simp [read16, failBus_readBytes, echoBus_readBytes_init, byte_recombine]
  unfold eepromProtocolOk
  refine ⟨?_, ?_, ?_, ?_, ?_, ?_, ?_, ?_, ?_, ?_, ?_, ?_, ?_, ?_⟩
  · simp [set_emissivity, hv1, hv2, write16_echo, writesTo, mkWriteOp,
      WriteOp.value, byte_recombine, St.init]
  · simp [set_i2c_address, ha1, ha2, write16_echo, writesTo, mkWriteOp,
      WriteOp.value, byte_recombine, St.init]
  · simp [set_pwm_tmin_trange, write16_echo, writesTo, mkWriteOp,
      WriteOp.value, byte_recombine, St.init, _REG_PWM_TMIN, _REG_PWM_TRANGE]
  · simp [set_pwm_tmin_trange, write16_echo, writesTo, mkWriteOp,
      WriteOp.value, byte_recombine, St.init, _REG_PWM_TMIN, _REG_PWM_TRANGE]
  · simp only [set_pwm_mode]
    rw [hread]
    simp [write16_echo, writesTo, mkWriteOp, WriteOp.value, byte_recombine,
      St.init]
  · simp [set_emissivity, hv1, hv2, write16_fail]
  · simp [set_emissivity, hv1, hv2, write16_fail, writesTo, mkWriteOp,
      WriteOp.value, byte_recombine, St.init]
  · simp [set_i2c_address, ha1, ha2, write16_fail]
  · simp [set_i2c_address, ha1, ha2, write16_fail, writesTo, mkWriteOp,
      WriteOp.value, byte_recombine, St.init]
  · simp [set_pwm_tmin_trange, write16_fail]
  · simp [set_pwm_tmin_trange, write16_fail, writesTo, mkWriteOp,
      WriteOp.value, byte_recombine, St.init, _REG_PWM_TMIN, _REG_PWM_TRANGE]
  · simp [set_pwm_tmin_trange, write16_fail, writesTo, mkWriteOp,
      WriteOp.value, byte_recombine, St.init, _REG_PWM_TMIN, _REG_PWM_TRANGE]
  · simp only [set_pwm_mode]
    rw [hreadf]
    simp [write16_fail]
  · simp only [set_pwm_mode]
    rw [hreadf]
    simp [write16_fail, writesTo, mkWriteOp, WriteOp.value, byte_recombine,
      St.init]

/-- Witness for C3: emissivity 95, new address `0x2A`, the default PWM
thresholds, and the power-up PWM flag combination. -/
theorem c3_erase_then_program_witness :
    5 ≤ 95 ∧ 95 ≤ 100 ∧ 0x08 ≤ 0x2A ∧ 0x2A ≤ 0x77 ∧
      eepromProtocolOk 0x5B 0x2F66 95 0x2A 0x355B 0x09C3 true false true true :=
  ⟨by decide, by decide, by decide, by decide,
    c3_erase_then_program 0x5B 0x2F66 95 0x2A 0x355B 0x09C3 true false true
      true (by decide) (by decide) (by decide) (by decide)⟩
